import Mathlib

/-!
A shallow embedding of the meeseeks-box chatops service, translated from the
repository sources:

  * `config/config.go`        — configuration parsing and command defaulting
  * `meeseeks/command/command.go` and the unnamed `commands` package variant —
    the command catalog and the local shell executor
  * `meeseeks/meeseeks.go`    — the message-processing dispatcher
  * `slack/slack.go`          — chat adapter link rendering/parsing and reply styles
  * `text/template/template.go` — the template phrase-bank helper `anyValue`

Go machine integers become `Int`/`Nat` (durations are `Int` nanoseconds, as
`time.Duration` is an `int64` nanosecond count); Go `error` results become
`Option String`/`Except String`; Go panics are a distinct explicit outcome.
The `auth` package and the built-in command values are not part of the source
tree; where needed they are modelled from the specification and flagged as such.
-/

namespace Meeseeks

/-! ### Association-list lookup

Go maps keyed by strings are embedded as association lists with unique keys;
`lookupKey` is the map read `m[k]`. -/

def lookupKey {β : Type} (k : String) : List (String × β) → Option β
  | [] => none
  | (k2, v) :: rest => if k2 = k then some v else lookupKey k rest

/-! ### `config/config.go` — data model and constants -/

/-- `AuthStrategyAny` from `config/config.go`. -/
def authStrategyAny : String := "any"

/-- `AuthStrategyAllowedGroup` from `config/config.go`. -/
def authStrategyAllowedGroup : String := "group"

/-- `AuthStrategyNone` from `config/config.go`. -/
def authStrategyNone : String := "none"

/-- `AdminGroup` from `config/config.go`. -/
def adminGroup : String := "admin"

/-- One nanosecond-per-second factor: Go `time.Second` as an `int64` count. -/
def nsPerSec : Int := 1000000000

/-- `DefaultCommandTimeout = 60 * time.Second` from `config/config.go`. -/
def defaultCommandTimeout : Int := 60 * nsPerSec

/-- Command type constants (`BuiltinCommandType`, `ShellCommandType`,
`RemoteCommandType` iota block in `config/config.go`). -/
def builtinCommandType : Nat := 0

/-- `ShellCommandType` from `config/config.go`. -/
def shellCommandType : Nat := 1

/-- `RemoteCommandType` from `config/config.go`. -/
def remoteCommandType : Nat := 2

/-- `BuiltinHelpCommand` name constant from `config/config.go`. -/
def builtinHelpCommand : String := "help"

/-- `DefaultInfoColorMessage` from `config/config.go`. -/
def defaultInfoColorMessage : String := ""

/-- `DefaultErrColorMessage` from `config/config.go`. -/
def defaultErrColorMessage : String := "#cc3300"

/-- `DefaultSuccessColorMessage` from `config/config.go`. -/
def defaultSuccessColorMessage : String := "#009900"

/-- `config.Command` struct from `config/config.go`: shell binary, static
arguments, allowed groups, auth strategy, timeout (a `time.Duration`, i.e. an
`int64` nanosecond count), per-command template overrides, help text, and the
command type tag. -/
structure ConfigCommand where
  cmd : String
  args : List String
  allowedGroups : List String
  authStrategy : String
  timeout : Int
  templates : List (String × String)
  help : String
  type : Nat
deriving DecidableEq, Repr

/-- `config.MessageColors` struct from `config/config.go`. -/
structure MessageColors where
  info : String
  success : String
  error : String
deriving DecidableEq, Repr

/-- `config.Database` struct from `config/config.go` (`path`, `timeout`,
`file_mode`). -/
structure Database where
  path : String
  timeout : Int
  mode : Nat
deriving DecidableEq, Repr

/-- `config.Config` struct from `config/config.go`: the Go maps become
association lists. -/
structure Config where
  database : Database
  messages : List (String × List String)
  commands : List (String × ConfigCommand)
  colors : MessageColors
  groups : List (String × List String)
deriving DecidableEq, Repr

/-- The zero value of `config.Command`, as produced by Go before YAML
unmarshalling fills any field. -/
def emptyConfigCommand : ConfigCommand :=
  { cmd := "", args := [], allowedGroups := [], authStrategy := "",
    timeout := 0, templates := [], help := "", type := 0 }

/-- The `Config` literal that `config.New` starts from before unmarshalling:
database and color defaults are preset, everything else is the zero value. -/
def defaultConfig : Config :=
  { database := { path := "meeseeks.db", timeout := 2 * nsPerSec, mode := 0o600 },
    messages := [],
    commands := [],
    colors := { info := defaultInfoColorMessage,
                success := defaultSuccessColorMessage,
                error := defaultErrColorMessage },
    groups := [] }

/-! ### YAML documents and `yaml.v2` unmarshalling

`config.New` feeds the raw bytes to `yaml.Unmarshal` from `gopkg.in/yaml.v2`.
A parsed YAML document is embedded structurally; `yaml.Unmarshal` (the
non-strict variant used by the source) assigns recognized struct fields by tag
and silently skips unknown keys, erroring only on type mismatches. -/

inductive YamlNode where
  | strN (s : String)
  | intN (n : Int)
  | listN (xs : List YamlNode)
  | mapN (kvs : List (String × YamlNode))

/-- Decode a YAML scalar into a Go `string` field. -/
def decodeStr : YamlNode → Except String String
  | .strN s => .ok s
  | _ => .error "cannot unmarshal into string"

/-- Decode a YAML scalar into a Go integer field (`time.Duration`,
`os.FileMode`). -/
def decodeInt : YamlNode → Except String Int
  | .intN n => .ok n
  | _ => .error "cannot unmarshal into int"

/-- Decode a YAML sequence into `[]string`. -/
def decodeStrList : YamlNode → Except String (List String)
  | .listN xs => xs.mapM decodeStr
  | _ => .error "cannot unmarshal into string slice"

/-- Decode a YAML mapping into `map[string]string` (template overrides). -/
def decodeStrMap : YamlNode → Except String (List (String × String))
  | .mapN kvs => kvs.mapM (fun p => (decodeStr p.2).map (fun v => (p.1, v)))
  | _ => .error "cannot unmarshal into string map"

/-- Decode a YAML mapping into `map[string][]string` (messages, groups). -/
def decodeStrListMap : YamlNode → Except String (List (String × List String))
  | .mapN kvs => kvs.mapM (fun p => (decodeStrList p.2).map (fun v => (p.1, v)))
  | _ => .error "cannot unmarshal into string list map"

/-- Assign one YAML key of a `commands:` entry into a `config.Command`,
following the `yaml:"..."` field tags; unknown sub-keys are skipped, exactly
as `yaml.v2`'s non-strict unmarshalling does. -/
def decodeCommandField (c : ConfigCommand) (kv : String × YamlNode) :
    Except String ConfigCommand :=
  if kv.1 = "command" then (decodeStr kv.2).map (fun s => { c with cmd := s })
  else if kv.1 = "arguments" then (decodeStrList kv.2).map (fun s => { c with args := s })
  else if kv.1 = "allowed_groups" then
    (decodeStrList kv.2).map (fun s => { c with allowedGroups := s })
  else if kv.1 = "auth_strategy" then
    (decodeStr kv.2).map (fun s => { c with authStrategy := s })
  else if kv.1 = "timeout" then (decodeInt kv.2).map (fun n => { c with timeout := n })
  else if kv.1 = "templates" then (decodeStrMap kv.2).map (fun s => { c with templates := s })
  else if kv.1 = "help" then (decodeStr kv.2).map (fun s => { c with help := s })
  else if kv.1 = "type" then (decodeInt kv.2).map (fun n => { c with type := n.toNat })
  else .ok c

/-- Decode one `commands:` entry. -/
def decodeCommand : YamlNode → Except String ConfigCommand
  | .mapN kvs => kvs.foldlM decodeCommandField emptyConfigCommand
  | _ => .error "cannot unmarshal into Command"

/-- Decode the `commands:` mapping. -/
def decodeCommands : YamlNode → Except String (List (String × ConfigCommand))
  | .mapN kvs => kvs.mapM (fun p => (decodeCommand p.2).map (fun c => (p.1, c)))
  | _ => .error "cannot unmarshal into command map"

/-- Assign one YAML key of a `colors:` entry, per the `yaml` tags of
`config.MessageColors`. -/
def decodeColorsField (c : MessageColors) (kv : String × YamlNode) :
    Except String MessageColors :=
  if kv.1 = "info" then (decodeStr kv.2).map (fun s => { c with info := s })
  else if kv.1 = "success" then (decodeStr kv.2).map (fun s => { c with success := s })
  else if kv.1 = "error" then (decodeStr kv.2).map (fun s => { c with error := s })
  else .ok c

/-- Decode the `colors:` mapping, starting from the preset defaults. -/
def decodeColors (c0 : MessageColors) : YamlNode → Except String MessageColors
  | .mapN kvs => kvs.foldlM decodeColorsField c0
  | _ => .error "cannot unmarshal into MessageColors"

/-- Assign one YAML key of a `db:` entry, per the `yaml` tags of
`config.Database`. -/
def decodeDatabaseField (d : Database) (kv : String × YamlNode) :
    Except String Database :=
  if kv.1 = "path" then (decodeStr kv.2).map (fun s => { d with path := s })
  else if kv.1 = "timeout" then (decodeInt kv.2).map (fun n => { d with timeout := n })
  else if kv.1 = "file_mode" then (decodeInt kv.2).map (fun n => { d with mode := n.toNat })
  else .ok d

/-- Decode the `db:` mapping, starting from the preset defaults. -/
def decodeDatabase (d0 : Database) : YamlNode → Except String Database
  | .mapN kvs => kvs.foldlM decodeDatabaseField d0
  | _ => .error "cannot unmarshal into Database"

/-- Assign one recognized top-level YAML key into the `Config`, following the
`yaml` tags of `config.Config` (`db`, `messages`, `commands`, `colors`,
`groups`); any other key is silently skipped, which is exactly what the
non-strict `yaml.Unmarshal` used by `config.New` does. -/
def unmarshalField (c : Config) (kv : String × YamlNode) : Except String Config :=
  if kv.1 = "db" then (decodeDatabase c.database kv.2).map (fun d => { c with database := d })
  else if kv.1 = "messages" then
    (decodeStrListMap kv.2).map (fun m => { c with messages := m })
  else if kv.1 = "commands" then
    (decodeCommands kv.2).map (fun m => { c with commands := m })
  else if kv.1 = "colors" then
    (decodeColors c.colors kv.2).map (fun m => { c with colors := m })
  else if kv.1 = "groups" then
    (decodeStrListMap kv.2).map (fun m => { c with groups := m })
  else .ok c

/-- `yaml.Unmarshal(b, &c)` of a top-level document into the `Config`. -/
def unmarshalConfig (c : Config) : YamlNode → Except String Config
  | .mapN kvs => kvs.foldlM unmarshalField c
  | _ => .error "cannot unmarshal into Config"

/-- Reduction of an integer into Go's `int64`: two's-complement wraparound
modulo `2^64` with results in `[-2^63, 2^63)`. Go integer overflow wraps, so
every `int64` arithmetic result passes through this. -/
def int64Wrap (n : Int) : Int :=
  let m := n % (2 : Int) ^ 64
  if m < (2 : Int) ^ 63 then m else m - (2 : Int) ^ 64

/-- The body of the command-defaulting loop in `config.New`: empty
`AuthStrategy` becomes `none`; `Timeout == 0` becomes the 60 s default,
otherwise the raw value is multiplied by `time.Second` — an `int64`
multiplication (`time.Duration` is an `int64`), which wraps on overflow; the
type is forced to `ShellCommandType`. -/
def applyCommandDefaults (c : ConfigCommand) : ConfigCommand :=
  let c1 := if c.authStrategy = "" then { c with authStrategy := authStrategyNone } else c
  let c2 := if c1.timeout = 0 then { c1 with timeout := defaultCommandTimeout }
            else { c1 with timeout := int64Wrap (c1.timeout * nsPerSec) }
  { c2 with type := shellCommandType }

/-- The `for name, command := range c.Commands` loop of `config.New`, which
re-sets every command with its defaults applied. -/
def processCommands (c : Config) : Config :=
  { c with commands := c.commands.map (fun p => (p.1, applyCommandDefaults p.2)) }

/-- `config.New` from `config/config.go`, starting from the preset defaults,
unmarshalling the document, then applying per-command defaults. (Reader I/O
errors are outside the embedding: the input is the already-read document.) -/
def configNew (doc : YamlNode) : Except String Config :=
  (unmarshalConfig defaultConfig doc).map processCommands

/-! ### Authorization -/

/-- Modelled from the spec: the `auth` package is not under `src/` (only its
caller `meeseeks.go` is). Per the specification's authorization table,
`auth.Check` receives the requesting username and the command's configuration:
strategy `any` always allows; `none` allows only members of the `admin` group;
`group` allows iff the user belongs to the union of the command's allowed
groups. The group map is the hot-reloadable `groups` configuration. `true`
means the check passed (a `nil` error in Go). -/
def authCheck (groups : List (String × List String)) (username : String)
    (cmd : ConfigCommand) : Bool :=
  if cmd.authStrategy = authStrategyAny then true
  else if cmd.authStrategy = authStrategyNone then
    ((lookupKey adminGroup groups).getD []).contains username
  else if cmd.authStrategy = authStrategyAllowedGroup then
    cmd.allowedGroups.any (fun g => ((lookupKey g groups).getD []).contains username)
  else false

/-! ### `meeseeks/command/command.go` — the command catalog

The `Command` interface value is embedded as a record carrying the kind tag of
its Go dynamic type, the `HasHandshake()` answer, the `ConfiguredCommand()`
configuration, and the executor behaviour as a function from the request
arguments to `(output, error)`. The subprocess semantics of a shell command is
an oracle parameter `runner` (the surrounding OS), threaded through catalog
construction. -/

inductive CKind where
  | builtinK
  | shellK
  | helpK
deriving DecidableEq, Repr

structure CommandI where
  kind : CKind
  handshake : Bool
  cnf : ConfigCommand
  execute : List String → String × Option String

/-- `newShellCommand` from `meeseeks/command/command.go`: wraps the
configuration; `HasHandshake` is hard-coded `true` for shell commands. -/
def newShellCommand (runner : ConfigCommand → List String → String × Option String)
    (cmd : ConfigCommand) : CommandI :=
  { kind := .shellK, handshake := true, cnf := cmd, execute := runner cmd }

/-- `buildCommand` from `meeseeks/command/command.go`: only
`ShellCommandType` is constructible; anything else is the
`ErrCommandNotFound` error. -/
def buildCommand (runner : ConfigCommand → List String → String × Option String)
    (cmd : ConfigCommand) : Except String CommandI :=
  if cmd.type = shellCommandType then .ok (newShellCommand runner cmd)
  else .error "cant find command"

/-- Modelled from the spec: the `helpCommand` built-in referenced by `New` is
defined in a source file absent from `src/`; per the spec it is the mandatory
`help` built-in that lists the catalog. Only its identity (kind) matters to
the catalog claims. -/
def helpCmd : CommandI :=
  { kind := .helpK, handshake := false, cnf := emptyConfigCommand,
    execute := fun _ => ("", none) }

/-- `Commands` struct from `meeseeks/command/command.go`: the catalog map. -/
structure Commands where
  commands : String → Option CommandI

/-- `Commands.Find`: map lookup, `none` standing for `ErrCommandNotFound`. -/
def Commands.find (c : Commands) (name : String) : Option CommandI :=
  c.commands name

/-- Insertion into the catalog map (`commands[name] = command`): later
insertions overwrite earlier ones, as in a Go map. -/
def insertCmd (m : String → Option CommandI) (k : String) (v : CommandI) :
    String → Option CommandI :=
  fun n => if n = k then some v else m n

/-- The `for name, configCommand := range cnf.Commands` loop of `New`:
build each configured command and insert it, aborting on the first build
error. -/
def buildCatalog (runner : ConfigCommand → List String → String × Option String)
    (m : String → Option CommandI) :
    List (String × ConfigCommand) → Except String (String → Option CommandI)
  | [] => .ok m
  | (name, c) :: rest =>
    match buildCommand runner c with
    | .error e => .error e
    | .ok cmd => buildCatalog runner (insertCmd m name cmd) rest

/-- `New` from `meeseeks/command/command.go`: built-ins are inserted first,
then every configured command (overwriting on name collision), and finally the
`help` built-in is unconditionally re-inserted under `BuiltinHelpCommand`.
The contents of the `builtInCommands` map live in a source file absent from
`src/`, so the map is a parameter (the spec lists its names). -/
def commandNew (runner : ConfigCommand → List String → String × Option String)
    (builtins : List (String × CommandI)) (cnf : Config) : Except String Commands :=
  let m0 := builtins.foldl (fun m p => insertCmd m p.1 p.2) (fun _ => none)
  match buildCatalog runner m0 cnf.commands with
  | .error e => .error e
  | .ok m1 => .ok ⟨insertCmd m1 builtinHelpCommand helpCmd⟩

/-! ### The local shell executors

Two variants of `shellCommand.Execute` are in the sources. Both are embedded
over an oracle describing what the spawned subprocess did, and both return the
`(combined output, error)` pair together with the list of job-log operations
they issued against the `logs` store. -/

/-- A call into the `jobs/logs` store issued by an executor. The store itself
is not under `src/`; only the calls the executor makes are modelled. -/
inductive LogOp where
  | append (jobID : Nat) (content : String)
  | setErrorOp (jobID : Nat) (err : Option String)
  | finish (jobID : Nat) (status : String)
deriving DecidableEq, Repr

/-- What the spawned subprocess did, for the `CombinedOutput` variant:
the merged stdout+stderr bytes and the `Wait` error (`none` on a zero exit). -/
structure SubprocResult where
  out : String
  err : Option String
deriving DecidableEq, Repr

/-- `shellCommand.Execute` from `meeseeks/command/command.go`: runs the
subprocess via `CombinedOutput`, appends the whole combined output as a single
log entry, records the command error (which is `nil` on success) via
`logs.SetError`, and returns `(content, cmdErr)`. Store failures are only
logged, so they do not alter the emitted calls. No other store operation — in
particular no `finish` — is issued. -/
def shellExecuteCombined (jobID : Nat) (sub : SubprocResult) :
    String × Option String × List LogOp :=
  let content := sub.out
  (content, sub.err, [LogOp.append jobID content, LogOp.setErrorOp jobID sub.err])

/-- Drop one trailing carriage return from a line held in reverse order —
`dropCR` of `bufio.ScanLines`, which removes a single `\r` before the
newline. -/
def revDropCR : List Char → List Char
  | [] => []
  | c :: t => if c = '\r' then t else c :: t

/-- The token loop of `bufio.Scanner` with `ScanLines`: split at each newline
(dropping one trailing `\r` per line); a non-empty remainder at EOF is the
final token. The accumulator holds the current line in reverse. -/
def scanLinesAux : List Char → List Char → List (List Char)
  | [], acc => if acc.isEmpty then [] else [(revDropCR acc).reverse]
  | c :: rest, acc =>
    if c = '\n' then (revDropCR acc).reverse :: scanLinesAux rest []
    else scanLinesAux rest (c :: acc)

/-- All tokens produced by a `bufio.Scanner` over the given bytes. -/
def scanLines (s : String) : List String :=
  (scanLinesAux s.data []).map String.mk

/-- `fmt.Sprintln` on a single string: the text plus a newline. -/
def sprintln (s : String) : String := s ++ "\n"

/-- Newline-terminated concatenation of a list of lines: what a subprocess
that prints each line writes to its stream. -/
def joinLines : List String → String
  | [] => ""
  | l :: rest => l ++ "\n" ++ joinLines rest

/-- What the spawned subprocess did, for the streaming variant: the bytes it
wrote to stdout, the bytes it wrote to stderr, and the `Wait` error. -/
structure StreamSubproc where
  stdout : String
  stderr : String
  err : Option String
deriving DecidableEq, Repr

/-- `shellCommand.Execute` from the unnamed `commands` package variant
(`src/unnamed/part_000`): only `StdoutPipe` is attached (stderr is never
piped); the pipe is tee-read into a buffer while a scanner goroutine emits one
`logs.Append(job.ID, fmt.Sprintln(line))` per scanned line, in order;
`logs.SetError(job.ID, err)` is issued after `Start` (here `none`, the start
having succeeded) and again after `Wait`; the buffered stdout bytes are
returned with the `Wait` error. The scanner goroutine runs concurrently with
the waiting thread, so the list serializes the appends in their scan order
followed by the two `SetError` calls. -/
def shellExecuteStreaming (jobID : Nat) (sub : StreamSubproc) :
    String × Option String × List LogOp :=
  let lineOps := (scanLines sub.stdout).map (fun l => LogOp.append jobID (sprintln l))
  (sub.stdout, sub.err,
    lineOps ++ [LogOp.setErrorOp jobID none, LogOp.setErrorOp jobID sub.err])

/-! ### `meeseeks/meeseeks.go` — the dispatcher

`Process` is embedded as a pure function from one inbound message to an
outcome: either the list of replies posted through the chat client together
with whether the command's executor was invoked, or a fatal termination —
every `replyWith*` helper calls `log.Fatalf` (which exits the process) when
its template fails to render. The `request.FromMessage` parser and the
template renderers live outside `src/`, so they are oracle parameters; the
renderers mirror the `Templates.Render*` methods, returning either the
rendered text or a render error. `client.Reply`'s own error is discarded by
the source, so posting always succeeds in the model. -/

structure Message where
  text : String
  channel : String
  replyTo : String
deriving DecidableEq, Repr

/-- The parsed `request.Request` (command name, argv, username, channel,
reply-to handle) as used by `Process`. -/
structure Request where
  command : String
  args : List String
  username : String
  channel : String
  replyTo : String
deriving DecidableEq, Repr

/-- The template renderers used by the reply helpers, one per template kind;
`Except.error` is a render failure. -/
structure RenderEnv where
  renderFailure : String → String → String → Except String String
  renderSuccess : String → String → Except String String
  renderHandshake : String → Except String String
  renderUnknownCommand : String → String → Except String String
  renderUnauthorizedCommand : String → String → Except String String

inductive ReplyKind where
  | handshakeK
  | successK
  | failureK
  | unknownK
  | unauthorizedK
deriving DecidableEq, Repr

/-- One `client.Reply(text, color, channel)` call, tagged with which reply
helper posted it. -/
structure Reply where
  kind : ReplyKind
  color : String
  channel : String
  content : String
deriving DecidableEq, Repr

/-- The observable result of `Process`: `fatal` is `log.Fatalf` (the process
exits), carrying the replies that had already been posted before the fatal
call (the handshake, when a later template fails) and the fatal message;
`done` carries the posted replies in order and whether `cmd.Execute` was
invoked. -/
inductive Outcome where
  | fatal (posted : List Reply) (msg : String)
  | done (replies : List Reply) (executed : Bool)
deriving DecidableEq, Repr

/-- `replyWithHandshake`: nothing when the command has no handshake flag;
otherwise render the handshake template (fatal on render failure) and post an
info-colored reply. -/
def handshakeStep (env : RenderEnv) (cnf : Config) (req : Request)
    (cmd : CommandI) : Except String (List Reply) :=
  if cmd.handshake then
    match env.renderHandshake req.replyTo with
    | .error f => .error f
    | .ok content =>
      .ok [{ kind := .handshakeK, color := cnf.colors.info,
             channel := req.channel, content := content }]
  else .ok []

/-- `Meeseeks.Process` from `meeseeks/meeseeks.go`:
parse the message (on failure reply with the failure template on the message's
channel); find the command (unknown-command reply if absent); call
`auth.Check(req.Command, cmd.ConfiguredCommand())` — note the source passes
the command name, not the username, in the username position — replying
unauthorized on denial; post the handshake; execute; and post the success or
failure reply. Every render failure is `log.Fatalf`, i.e. `Outcome.fatal` —
carrying the replies already posted before the fatal call (the handshake
replies, when the success or failure template fails after execution). -/
def Process (env : RenderEnv) (cnf : Config) (cmds : Commands)
    (fromMessage : Message → Except String Request) (msg : Message) : Outcome :=
  match fromMessage msg with
  | .error e =>
    match env.renderFailure msg.replyTo e "" with
    | .error f => .fatal [] f
    | .ok content =>
      .done [{ kind := .failureK, color := cnf.colors.error,
               channel := msg.channel, content := content }] false
  | .ok req =>
    match cmds.find req.command with
    | none =>
      match env.renderUnknownCommand req.replyTo req.command with
      | .error f => .fatal [] f
      | .ok content =>
        .done [{ kind := .unknownK, color := cnf.colors.error,
                 channel := req.channel, content := content }] false
    | some cmd =>
      if authCheck cnf.groups req.command cmd.cnf then
        match handshakeStep env cnf req cmd with
        | .error f => .fatal [] f
        | .ok hs =>
          match cmd.execute req.args with
          | (out, some e) =>
            match env.renderFailure req.replyTo e out with
            | .error f => .fatal hs f
            | .ok content =>
              .done (hs ++ [{ kind := .failureK, color := cnf.colors.error,
                              channel := req.channel, content := content }]) true
          | (out, none) =>
            match env.renderSuccess req.replyTo out with
            | .error f => .fatal hs f
            | .ok content =>
              .done (hs ++ [{ kind := .successK, color := cnf.colors.success,
                              channel := req.channel, content := content }]) true
      else
        match env.renderUnauthorizedCommand req.replyTo req.command with
        | .error f => .fatal [] f
        | .ok content =>
          .done [{ kind := .unauthorizedK, color := cnf.colors.error,
                   channel := req.channel, content := content }] false

/-! ### `slack/slack.go` — reply styles and link rendering/parsing -/

/-- The `formatter.Reply` consumed by the slack reply styles: its `Render()`
result, color, and target channel. -/
structure FormatterReply where
  render : Except String String
  color : String
  channelID : String

/-- What a reply style did: posted a message, or returned after only logging. -/
inductive PostAction where
  | posted (channel content color : String)
  | skipped
deriving DecidableEq, Repr

/-- `attachmentReplyStyle.Reply` from `slack/slack.go`: a render failure is
logged and the function returns without posting; otherwise the content is
posted as an attachment (the `PostMessage` error itself is only logged). -/
def attachmentReplyStyleReply (r : FormatterReply) : PostAction :=
  match r.render with
  | .error _ => .skipped
  | .ok content => .posted r.channelID content r.color

/-- `GetUserLink` (and `Message.GetUserLink`) from `slack/slack.go`:
`fmt.Sprintf("<@%s>", userID)`. -/
def getUserLink (userID : String) : String := "<@" ++ userID ++ ">"

/-- `GetChannelLink` (and `Message.GetChannelLink`) from `slack/slack.go`:
`fmt.Sprintf("<#%s|%s>", channelID, name)`, the name coming from the channel
lookup. -/
def getChannelLink (channelID name : String) : String :=
  "<#" ++ channelID ++ "|" ++ name ++ ">"

/-- The character class `.` of the Go regexps: any character except newline. -/
def notNL (c : Char) : Bool := c ≠ '\n'

/-- The last index at which `c` occurs in `l`. -/
def lastIndexOf (c : Char) : List Char → Option Nat
  | [] => none
  | x :: xs =>
    match lastIndexOf c xs with
    | some i => some (i + 1)
    | none => if x = c then some 0 else none

/-- The Go regexp `<@(.*)>` matched at one position, the leading `<@` already
consumed: `.` excludes newlines, so the greedy group runs to the last `>`
inside the newline-free prefix; `none` when the pattern cannot match here. -/
def matchUserGroup (cs : List Char) : Option (List Char) :=
  let pre := cs.takeWhile notNL
  match lastIndexOf '>' pre with
  | some k => some (pre.take k)
  | none => none

/-- Leftmost-first matching of `<@(.*)>` over the whole input, as
`FindStringSubmatch` does: try each start position in order and return the
first group captured. -/
def parseUserLinkChars : List Char → Option (List Char)
  | [] => none
  | c :: rest =>
    match (match c, rest with
           | '<', '@' :: cs => matchUserGroup cs
           | _, _ => none) with
    | some g => some g
    | none => parseUserLinkChars rest

/-- `ParseUserLink` from `slack/slack.go`: `FindStringSubmatch` of `<@(.*)>`;
a match yields the captured group, no match is the invalid-user-link error. -/
def parseUserLink (s : String) : Except String String :=
  match parseUserLinkChars s.data with
  | some g => .ok (String.mk g)
  | none => .error ("invalid user link: " ++ s)

/-- First alternative of the Go regexp written as the raw string
`<#(.*)\\|.*>`. In a raw string `\\` is two characters, so the regexp engine
reads `\\` as an escaped backslash followed by the alternation bar `|`: the
pattern is the alternation of `<#(.*)\\` and `.*>`. This alternative needs
`<#`, then the greedy group, then a literal backslash. -/
def matchChanAlt1 : List Char → Option (List Char)
  | '<' :: '#' :: cs =>
    let pre := cs.takeWhile notNL
    match lastIndexOf '\\' pre with
    | some k => some (pre.take k)
    | none => none
  | _ => none

/-- Second alternative `.*>` of the channel-link regexp at one position: it
matches iff a `>` occurs in the newline-free prefix; the capture group is in
the other alternative, so it does not participate and `FindStringSubmatch`
reports it as the empty string. -/
def matchChanAlt2 (cs : List Char) : Bool :=
  (cs.takeWhile notNL).contains '>'

/-- Leftmost-first matching of `<#(.*)\\|.*>`: at each start position the
first alternative is preferred; a match through the second alternative
captures nothing. -/
def parseChannelLinkChars : List Char → Option (List Char)
  | [] => none
  | c :: rest =>
    match matchChanAlt1 (c :: rest) with
    | some g => some g
    | none =>
      if matchChanAlt2 (c :: rest) then some []
      else parseChannelLinkChars rest

/-- `ParseChannelLink` from `slack/slack.go`: `FindStringSubmatch` of the raw
pattern `<#(.*)\\|.*>`; a match yields the captured group (empty when the
group did not participate), no match is the invalid-channel-link error. -/
def parseChannelLink (s : String) : Except String String :=
  match parseChannelLinkChars s.data with
  | some g => .ok (String.mk g)
  | none => .error ("invalid channel link: " ++ s)

/-! ### `text/template/template.go` — the `anyValue` phrase picker -/

/-- A `map[string]interface{}` payload value: either a `[]string` phrase bank
or some other dynamic value (whose type assertion to `[]string` fails). -/
inductive PayloadVal where
  | strList (xs : List String)
  | raw (s : String)
deriving DecidableEq, Repr

/-- A Go call result that may also have panicked. -/
inductive GoResult (α : Type) where
  | ok (a : α)
  | errR (e : String)
  | panicked (msg : String)
deriving DecidableEq, Repr

/-- `anyValue` from `text/template/template.go`: missing key and failed
`[]string` type assertion return errors; otherwise the value at
`rand.Intn(len(slice))` is returned. `rand.Intn` panics when its argument is
not positive, so an empty phrase bank panics; the random draw is modelled by
the oracle `seed`, reduced modulo the length exactly as `Intn` bounds its
result. -/
def anyValue (key : String) (payload : List (String × PayloadVal))
    (seed : Nat) : GoResult String :=
  match lookupKey key payload with
  | none => .errR (key ++ " is not loaded in the payload")
  | some (.raw _) => .errR (key ++ " is not a string slice")
  | some (.strList xs) =>
    if h : 0 < xs.length then
      .ok (xs.get ⟨seed % xs.length, Nat.mod_lt _ h⟩)
    else .panicked "invalid argument to Intn"

/-! ### Concrete scenes used to instantiate the theorems -/

/-- A subprocess oracle for concrete scenes: every run exits cleanly with no
output. -/
def runner0 : ConfigCommand → List String → String × Option String :=
  fun _ _ => ("", none)

/-- A concrete stand-in for the `version` entry of the `builtInCommands`
map (the map's contents live outside `src/`; only its identity matters). -/
def builtinVersionCmd : CommandI :=
  { kind := .builtinK, handshake := false, cnf := emptyConfigCommand,
    execute := fun _ => ("meeseeks-box version", none) }

/-- A one-entry built-in map holding the `version` built-in. -/
def builtinsSample : List (String × CommandI) := [("version", builtinVersionCmd)]

/-- A configured shell command, as `config.New` would produce it. -/
def shellCfgSample : ConfigCommand :=
  { cmd := "echo", args := ["hi"], allowedGroups := [], authStrategy := authStrategyAny,
    timeout := defaultCommandTimeout, templates := [], help := "",
    type := shellCommandType }

/-- A configuration whose single configured command collides with the
`version` built-in's name. -/
def cnfCollide : Config := { defaultConfig with commands := [("version", shellCfgSample)] }

/-- Renderers that always succeed, each returning a distinct marker text. -/
def envOK : RenderEnv :=
  { renderFailure := fun _ _ _ => .ok "rendered-failure",
    renderSuccess := fun _ _ => .ok "rendered-success",
    renderHandshake := fun _ => .ok "rendered-handshake",
    renderUnknownCommand := fun _ _ => .ok "rendered-unknown",
    renderUnauthorizedCommand := fun _ _ => .ok "rendered-unauthorized" }

/-- Renderers whose failure template cannot be rendered. -/
def envRenderBroken : RenderEnv :=
  { envOK with renderFailure := fun _ _ _ => .error "template-boom" }

/-- Renderers whose success template cannot be rendered (the handshake
template still renders). -/
def envSuccessBroken : RenderEnv :=
  { envOK with renderSuccess := fun _ _ => .error "success-boom" }

/-- A group-guarded command allowing the `admin` group. -/
def deployCfg : ConfigCommand :=
  { cmd := "rm", args := [], allowedGroups := [adminGroup],
    authStrategy := authStrategyAllowedGroup, timeout := defaultCommandTimeout,
    templates := [], help := "", type := shellCommandType }

/-- The catalog entry for `deployCfg`. -/
def deployCmd : CommandI :=
  { kind := .shellK, handshake := true, cnf := deployCfg,
    execute := fun _ => ("removed", none) }

/-- A catalog holding only the `deploy` command. -/
def catalogDeploy : Commands :=
  ⟨fun n => if n = "deploy" then some deployCmd else none⟩

/-- A configuration whose `admin` group contains exactly the user `alice`. -/
def cnfAdminAlice : Config := { defaultConfig with groups := [(adminGroup, ["alice"])] }

/-- The request `alice` sends to run `deploy` on channel `ops`. -/
def reqDeploy : Request :=
  { command := "deploy", args := [], username := "alice", channel := "ops",
    replyTo := "alice" }

/-- A parser oracle that parses every message into `reqDeploy`. -/
def fmDeploy : Message → Except String Request := fun _ => .ok reqDeploy

/-- The inbound chat message for the `deploy` scene. -/
def msgDeploy : Message := { text := "deploy", channel := "ops", replyTo := "alice" }

/-- A parser oracle for an unparseable message. -/
def fmBroken : Message → Except String Request := fun _ => .error "failed to parse"

/-- An unrestricted echo command configuration. -/
def echoCfg : ConfigCommand :=
  { cmd := "echo", args := ["hi"], allowedGroups := [], authStrategy := authStrategyAny,
    timeout := defaultCommandTimeout, templates := [], help := "",
    type := shellCommandType }

/-- The catalog entry for `echoCfg`; its executor echoes its arguments. -/
def echoCmd : CommandI :=
  { kind := .shellK, handshake := true, cnf := echoCfg,
    execute := fun args => ("hi " ++ String.intercalate " " args ++ "\n", none) }

/-- A catalog holding only the `echo` command. -/
def catalogEcho : Commands :=
  ⟨fun n => if n = "echo" then some echoCmd else none⟩

/-- The request `alice` sends to run `echo world`. -/
def reqEcho : Request :=
  { command := "echo", args := ["world"], username := "alice", channel := "ops",
    replyTo := "alice" }

/-- A parser oracle that parses every message into `reqEcho`. -/
def fmEcho : Message → Except String Request := fun _ => .ok reqEcho

/-- The inbound chat message for the `echo` scene. -/
def msgEcho : Message := { text := "echo world", channel := "ops", replyTo := "alice" }

/-- The handshake reply `Process` posts in the `echo` scene. -/
def hsReplyW : Reply :=
  { kind := .handshakeK, color := defaultInfoColorMessage, channel := "ops",
    content := "rendered-handshake" }

/-- The success reply `Process` posts in the `echo` scene. -/
def successReplyW : Reply :=
  { kind := .successK, color := defaultSuccessColorMessage, channel := "ops",
    content := "rendered-success" }

/-- A command configuration carrying a 5-second raw timeout value. -/
def sleepyCfg : ConfigCommand := { emptyConfigCommand with timeout := 5 }

/-- A parsed configuration with one command whose raw timeout is 5 and one
with the absent (zero) timeout. -/
def cnfTimeouts : Config :=
  { defaultConfig with commands := [("sleepy", sleepyCfg), ("echo", emptyConfigCommand)] }

/-! ## Helper lemmas -/

theorem lookupKey_append {β : Type} (k : String) (l1 l2 : List (String × β)) :
    lookupKey k (l1 ++ l2) =
      match lookupKey k l1 with
      | some v => some v
      | none => lookupKey k l2 := by
  induction l1 with
  | nil => simp [lookupKey]
  | cons p t ih =>
    obtain ⟨k2, v⟩ := p
    by_cases h : k2 = k <;> simp [lookupKey, h, ih]

theorem lookupKey_eq_none_of_not_mem {β : Type} (k : String)
    (l : List (String × β)) (h : k ∉ l.map Prod.fst) : lookupKey k l = none := by
  induction l with
  | nil => rfl
  | cons p t ih =>
    simp only [List.map_cons, List.mem_cons] at h
    push_neg at h
    simp [lookupKey, Ne.symm h.1, ih h.2]

theorem lookupKey_reverse_of_nodup {β : Type} (k : String)
    (l : List (String × β)) (h : (l.map Prod.fst).Nodup) :
    lookupKey k l.reverse = lookupKey k l := by
  induction l with
  | nil => rfl
  | cons p t ih =>
    obtain ⟨k2, v⟩ := p
    simp only [List.map_cons, List.nodup_cons] at h
    rw [List.reverse_cons, lookupKey_append, ih h.2]
    by_cases hk : k2 = k
    · subst hk
      rw [lookupKey_eq_none_of_not_mem k2 t h.1]
      simp [lookupKey]
    · simp only [lookupKey, if_neg hk]
      cases lookupKey k t <;> simp [lookupKey, hk]

theorem lookupKey_map_val {β γ : Type} (f : β → γ) (k : String)
    (l : List (String × β)) :
    lookupKey k (l.map (fun p => (p.1, f p.2))) = (lookupKey k l).map f := by
  induction l with
  | nil => rfl
  | cons p t ih =>
    by_cases h : p.1 = k <;> simp [lookupKey, h, ih]

theorem buildCatalog_spec (runner : ConfigCommand → List String → String × Option String) :
    ∀ (cmds : List (String × ConfigCommand)) (m : String → Option CommandI),
      (∀ p ∈ cmds, p.2.type = shellCommandType) →
      ∃ m2, buildCatalog runner m cmds = .ok m2 ∧
        ∀ n, m2 n =
          match lookupKey n cmds.reverse with
          | some c => some (newShellCommand runner c)
          | none => m n := by
  intro cmds
  induction cmds with
  | nil =>
    intro m _
    exact ⟨m, rfl, fun n => by simp [lookupKey]⟩
  | cons p rest ih =>
    intro m hall
    obtain ⟨name, c⟩ := p
    have hc : c.type = shellCommandType := hall ⟨name, c⟩ (List.mem_cons_self _ _)
    have hbuild : buildCommand runner c = .ok (newShellCommand runner c) := by
      simp [buildCommand, hc]
    obtain ⟨m2, hrun, hspec⟩ :=
      ih (insertCmd m name (newShellCommand runner c))
        (fun p hp => hall p (List.mem_cons_of_mem _ hp))
    refine ⟨m2, ?_, ?_⟩
    · simp [buildCatalog, hbuild, hrun]
    · intro n
      rw [hspec n, List.reverse_cons, lookupKey_append]
      cases hrest : lookupKey n rest.reverse with
      | some c2 => rfl
      | none =>
        by_cases hn : name = n
        · subst hn
          simp [lookupKey, insertCmd]
        · simp [lookupKey, insertCmd, hn, Ne.symm hn]

theorem handshakeStep_spec (env : RenderEnv) (cnf : Config) (req : Request)
    (cmd : CommandI) (hs : List Reply) (h : handshakeStep env cnf req cmd = .ok hs) :
    (cmd.handshake = true ∧ ∃ r, hs = [r] ∧ r.kind = ReplyKind.handshakeK)
    ∨ (cmd.handshake = false ∧ hs = []) := by
  by_cases hh : cmd.handshake
  · left
    refine ⟨hh, ?_⟩
    simp only [handshakeStep, hh, if_true] at h
    cases hr : env.renderHandshake req.replyTo with
    | error f => rw [hr] at h; cases h
    | ok content =>
      rw [hr] at h
      cases h
      exact ⟨_, rfl, rfl⟩
  · have hh2 : cmd.handshake = false := by simpa using hh
    right
    refine ⟨hh2, ?_⟩
    simp only [handshakeStep, hh2, Bool.false_eq_true, if_false] at h
    injection h with h2
    exact h2.symm

theorem scanLinesAux_append_newline (l : List Char) :
    ∀ (acc rest : List Char), '\n' ∉ l →
      scanLinesAux (l ++ '\n' :: rest) acc =
        (revDropCR (l.reverse ++ acc)).reverse :: scanLinesAux rest [] := by
  induction l with
  | nil =>
    intro acc rest _
    simp [scanLinesAux]
  | cons c t ih =>
    intro acc rest h
    simp only [List.mem_cons] at h
    push_neg at h
    have hc : ¬ c = '\n' := fun hcc => h.1 hcc.symm
    have goal2 : scanLinesAux (t ++ '\n' :: rest) (c :: acc) =
        (revDropCR ((c :: t).reverse ++ acc)).reverse :: scanLinesAux rest [] := by
      rw [ih (c :: acc) rest h.2]
      simp
    simp only [List.cons_append, scanLinesAux, if_neg hc]
    exact goal2

theorem revDropCR_reverse_of_no_cr (l : List Char) (h : l.getLast? ≠ some '\r') :
    (revDropCR l.reverse).reverse = l := by
  cases hr : l.reverse with
  | nil =>
    have : l = [] := by simpa using congrArg List.reverse hr
    simp [this, revDropCR]
  | cons c t =>
    have hl : l = (c :: t).reverse := by
      have := congrArg List.reverse hr
      simpa using this
    have hlast : l.getLast? = some c := by
      rw [hl]
      simp [List.reverse_cons, List.getLast?_concat]
    have hc : ¬ c = '\r' := by
      intro hcc
      exact h (hcc ▸ hlast)
    simp only [revDropCR, if_neg hc]
    · rw [← hr, List.reverse_reverse]

theorem scanLines_joinLines (ls : List String)
    (h : ∀ l ∈ ls, '\n' ∉ l.data ∧ l.data.getLast? ≠ some '\r') :
    scanLines (joinLines ls) = ls := by
  induction ls with
  | nil => rfl
  | cons l rest ih =>
    obtain ⟨h1, h2⟩ := h l (List.mem_cons_self _ _)
    have hdata : (joinLines (l :: rest)).data =
        l.data ++ '\n' :: (joinLines rest).data := by
      show (l ++ "\n" ++ joinLines rest).data = _
      rw [String.data_append, String.data_append, List.append_assoc]
      rfl
    unfold scanLines
    rw [hdata, scanLinesAux_append_newline l.data [] (joinLines rest).data h1]
    rw [List.append_nil]
    rw [List.map_cons]
    rw [revDropCR_reverse_of_no_cr l.data h2]
    have hrest := ih (fun x hx => h x (List.mem_cons_of_mem _ hx))
    unfold scanLines at hrest
    rw [hrest]

theorem lastIndexOf_append_self (c : Char) (l : List Char) :
    lastIndexOf c (l ++ [c]) = some l.length := by
  induction l with
  | nil => simp [lastIndexOf]
  | cons x t ih => simp [lastIndexOf, ih]

theorem lastIndexOf_eq_none_of_not_mem (c : Char) (l : List Char)
    (h : c ∉ l) : lastIndexOf c l = none := by
  induction l with
  | nil => rfl
  | cons x t ih =>
    simp only [List.mem_cons] at h
    push_neg at h
    have hxc : ¬ x = c := fun hx => h.1 hx.symm
    simp [lastIndexOf, ih h.2, hxc]

theorem notNL_all_of_no_newline (l : List Char) (h : '\n' ∉ l) :
    ∀ x ∈ l, notNL x = true := by
  intro x hx
  simp only [notNL, decide_eq_true_eq]
  intro hxx
  rw [hxx] at hx
  exact h hx

theorem takeWhile_notNL_eq_self (l : List Char) (h : '\n' ∉ l) :
    l.takeWhile notNL = l :=
  List.takeWhile_eq_self_iff.mpr (notNL_all_of_no_newline l h)

theorem matchUserGroup_roundtrip (u : List Char) (h : '\n' ∉ u) :
    matchUserGroup (u ++ ['>']) = some u := by
  have hmem : '\n' ∉ u ++ ['>'] := by
    intro hx
    rcases List.mem_append.mp hx with hx | hx
    · exact h hx
    · simp only [List.mem_singleton] at hx
      cases hx
  unfold matchUserGroup
  rw [takeWhile_notNL_eq_self _ hmem]
  simp [lastIndexOf_append_self, List.take_left]

/-! ## Claim C3 — built-in shadowing in the catalog -/

/-- C3 counterexample: a configuration whose configured command is named
`version`, colliding with the `version` built-in. `New` does not fail — it
returns a catalog — and the catalog's entry for `version` is the configured
shell command (kind `shellK`), not the built-in (kind `builtinK`): the
built-in has been silently replaced. -/
theorem c3_counterexample :
    (commandNew runner0 builtinsSample cnfCollide).map
        (fun cat => (cat.find "version").map CommandI.kind)
      = Except.ok (some CKind.shellK)
    ∧ builtinVersionCmd.kind = CKind.builtinK := ⟨rfl, rfl⟩

/-- C3 (amended): building the catalog never fails on a name collision: when
every configured command is shell-typed (as `config.New` guarantees), `New`
succeeds, every configured command is in the catalog under its name — silently
replacing any built-in of the same name — and only the `help` entry cannot be
shadowed, being unconditionally re-inserted last. -/
theorem c3_amended (runner : ConfigCommand → List String → String × Option String)
    (builtins : List (String × CommandI)) (cnf : Config)
    (hshell : ∀ p ∈ cnf.commands, p.2.type = shellCommandType)
    (hnodup : (cnf.commands.map Prod.fst).Nodup) :
    ∃ cat, commandNew runner builtins cnf = .ok cat
      ∧ cat.find builtinHelpCommand = some helpCmd
      ∧ ∀ name c, name ≠ builtinHelpCommand →
          lookupKey name cnf.commands = some c →
          cat.find name = some (newShellCommand runner c) := by
  obtain ⟨m2, hrun, hspec⟩ :=
    buildCatalog_spec runner cnf.commands
      (builtins.foldl (fun m p => insertCmd m p.1 p.2) (fun _ => none)) hshell
  refine ⟨⟨insertCmd m2 builtinHelpCommand helpCmd⟩, ?_, ?_, ?_⟩
  · simp [commandNew, hrun]
  · simp [Commands.find, insertCmd]
  · intro name c hname hlook
    have hm2 := hspec name
    rw [lookupKey_reverse_of_nodup name cnf.commands hnodup, hlook] at hm2
    simp [Commands.find, insertCmd, hname, hm2]

/-- C3 amended witness: the concrete collision scene. -/
theorem c3_amended_witness :
    ∃ cat, commandNew runner0 builtinsSample cnfCollide = .ok cat
      ∧ cat.find builtinHelpCommand = some helpCmd
      ∧ cat.find "version" = some (newShellCommand runner0 shellCfgSample) := by
  obtain ⟨cat, h1, h2, h3⟩ :=
    c3_amended runner0 builtinsSample cnfCollide (by decide) (by decide)
  exact ⟨cat, h1, h2, h3 "version" shellCfgSample (by decide) (by decide)⟩

/-! ## Claim C4 — set_error then finish in the executor -/

/-- C4 counterexample: a concrete successful execution. The executor appends
the combined output and records the (nil) error via `SetError`, but the
emitted operation list contains no `finish` call at all — the terminal
transition claimed by the spec is never performed by the executor. -/
theorem c4_counterexample :
    shellExecuteCombined 1 ⟨"hi world\n", none⟩ =
      ("hi world\n", none, [LogOp.append 1 "hi world\n", LogOp.setErrorOp 1 none])
    ∧ LogOp.finish 1 "successful" ∉ (shellExecuteCombined 1 ⟨"hi world\n", none⟩).2.2 := by
  refine ⟨rfl, ?_⟩
  decide

/-- C4 (amended): after the subprocess completes, the executor always records
the job's error value (`none` on success) via `set_error`, having appended the
combined output as a single log entry, and returns the output and error; it
never calls `finish` — the executor performs no terminal status transition. -/
theorem c4_amended (jobID : Nat) (sub : SubprocResult) :
    (shellExecuteCombined jobID sub).2.2 =
      [LogOp.append jobID sub.out, LogOp.setErrorOp jobID sub.err]
    ∧ (shellExecuteCombined jobID sub).1 = sub.out
    ∧ (shellExecuteCombined jobID sub).2.1 = sub.err
    ∧ ∀ status, LogOp.finish jobID status ∉ (shellExecuteCombined jobID sub).2.2 := by
  refine ⟨rfl, rfl, rfl, ?_⟩
  intro status h
  simp [shellExecuteCombined] at h

/-- C4 amended witness: a concrete failed execution records the error and
emits no finish. -/
theorem c4_amended_witness :
    (shellExecuteCombined 2 ⟨"out\n", some "exit status 1"⟩).2.2 =
      [LogOp.append 2 "out\n", LogOp.setErrorOp 2 (some "exit status 1")]
    ∧ LogOp.finish 2 "failed" ∉ (shellExecuteCombined 2 ⟨"out\n", some "exit status 1"⟩).2.2 := by
  have h := c4_amended 2 ⟨"out\n", some "exit status 1"⟩
  exact ⟨h.1, h.2.2.2 "failed"⟩

/-! ## Claim C5 — line streaming in the scanner executor -/

/-- C5 counterexample: a subprocess that writes only to stderr. The claim
requires its line to be appended to the job log and its bytes to appear in the
returned output; the executor pipes only stdout, so the operation list
contains no append at all and the returned output is empty. -/
theorem c5_counterexample :
    shellExecuteStreaming 7 ⟨"", "oops\n", none⟩ =
      ("", none, [LogOp.setErrorOp 7 none, LogOp.setErrorOp 7 none])
    ∧ LogOp.append 7 "oops\n" ∉ (shellExecuteStreaming 7 ⟨"", "oops\n", none⟩).2.2 := by
  refine ⟨rfl, ?_⟩
  decide

/-- C5 (amended): every line of the subprocess's **stdout** — stderr is never
piped and is lost — is passed through the line scanner and emitted as exactly
one `append_log(job.id, line + "\n")` per line, in production order, while the
same stdout bytes are returned as the combined output. -/
theorem c5_amended (jobID : Nat) (ls : List String) (stderrBytes : String)
    (err : Option String)
    (h : ∀ l ∈ ls, '\n' ∉ l.data ∧ l.data.getLast? ≠ some '\r') :
    (shellExecuteStreaming jobID ⟨joinLines ls, stderrBytes, err⟩).2.2 =
      ls.map (fun l => LogOp.append jobID (l ++ "\n"))
        ++ [LogOp.setErrorOp jobID none, LogOp.setErrorOp jobID err]
    ∧ (shellExecuteStreaming jobID ⟨joinLines ls, stderrBytes, err⟩).1 = joinLines ls := by
  constructor
  · simp [shellExecuteStreaming, scanLines_joinLines ls h, sprintln]
  · rfl

/-- C5 amended witness: one stdout line round-trips through the scanner. -/
theorem c5_amended_witness :
    (shellExecuteStreaming 3 ⟨joinLines ["hi world"], "x", none⟩).2.2 =
      [LogOp.append 3 "hi world\n", LogOp.setErrorOp 3 none, LogOp.setErrorOp 3 none]
    ∧ (shellExecuteStreaming 3 ⟨joinLines ["hi world"], "x", none⟩).1 =
        joinLines ["hi world"] := by
  have h := c5_amended 3 ["hi world"] "x" none (by decide)
  exact ⟨h.1, h.2⟩

/-! ## Claim C7 — unknown configuration keys -/

/-- C7 counterexample: a document whose only top-level key is unrecognized.
`config.New` does not return an error: it returns the default configuration,
the unknown key having been silently ignored by the non-strict
`yaml.Unmarshal`. -/
theorem c7_counterexample :
    configNew (YamlNode.mapN [("garbagekey", YamlNode.strN "x")]) =
      Except.ok defaultConfig := rfl

/-- C7 (amended): a top-level key that is not one of the recognized
configuration keys (`db`, `messages`, `commands`, `colors`, `groups`) is
silently ignored: parsing behaves exactly as if the entry were absent, and no
error is produced for it. -/
theorem c7_amended (k : String) (v : YamlNode) (kvs : List (String × YamlNode))
    (h : k ∉ (["db", "messages", "commands", "colors", "groups"] : List String)) :
    configNew (YamlNode.mapN ((k, v) :: kvs)) = configNew (YamlNode.mapN kvs) := by
  simp only [List.mem_cons, List.mem_singleton] at h
  push_neg at h
  obtain ⟨h1, h2, h3, h4, h5⟩ := h
  have hk : unmarshalField defaultConfig (k, v) = .ok defaultConfig := by
    simp [unmarshalField, h1, h2, h3, h4, h5]
  simp only [configNew, unmarshalConfig, List.foldlM_cons, hk]
  rfl

/-- C7 amended witness: the concrete unknown key. -/
theorem c7_amended_witness :
    configNew (YamlNode.mapN [("garbagekey", YamlNode.strN "x")]) =
      configNew (YamlNode.mapN []) :=
  c7_amended "garbagekey" (YamlNode.strN "x") [] (by decide)

/-! ## Claim C8 — timeout defaulting -/

theorem int64Wrap_eq_self (n : Int) (h0 : 0 ≤ n) (h1 : n < (2 : Int) ^ 63) :
    int64Wrap n = n := by
  unfold int64Wrap
  have h2 : n < (2 : Int) ^ 64 := by
    have : (2 : Int) ^ 63 < (2 : Int) ^ 64 := by norm_num
    omega
  rw [Int.emod_eq_of_lt h0 h2, if_pos h1]

/-- C8 counterexample: the raw timeout `9223372037` (which fits `int64`, so
YAML accepts it). `command.Timeout *= time.Second` is an `int64`
multiplication; `9223372037 * 10^9` exceeds `2^63 - 1` and wraps to a negative
duration, so the command is not assigned "exactly t seconds". -/
theorem c8_counterexample :
    (applyCommandDefaults { emptyConfigCommand with timeout := 9223372037 }).timeout =
      -9223372036709551616
    ∧ (-9223372036709551616 : Int) ≠ 9223372037 * nsPerSec := by
  refine ⟨?_, by decide⟩
  decide

/-- C8 (amended): in every parsed configuration the command-defaulting pass of
`config.New` re-sets each command; a command whose timeout field is 0 (the
zero value, i.e. absent) gets the 60-second default, and a command whose
timeout field is a positive `t` gets exactly `t` seconds provided
`t * 10^9` fits `int64` (`t ≤ 9223372036`); beyond that the `int64`
multiplication wraps. -/
theorem c8_amended (c0 : Config) (name : String) (cc : ConfigCommand)
    (h : lookupKey name c0.commands = some cc) :
    lookupKey name (processCommands c0).commands = some (applyCommandDefaults cc)
    ∧ (cc.timeout = 0 → (applyCommandDefaults cc).timeout = 60 * nsPerSec)
    ∧ (0 < cc.timeout → cc.timeout * nsPerSec < (2 : Int) ^ 63 →
        (applyCommandDefaults cc).timeout = cc.timeout * nsPerSec) := by
  refine ⟨?_, ?_, ?_⟩
  · simp [processCommands, lookupKey_map_val, h]
  · intro h0
    unfold applyCommandDefaults
    by_cases ha : cc.authStrategy = "" <;>
      simp [ha, h0, defaultCommandTimeout]
  · intro h0 hbound
    have hne : ¬ cc.timeout = 0 := by omega
    have hnn : (0 : Int) ≤ cc.timeout * nsPerSec := by
      have : (0 : Int) ≤ nsPerSec := by norm_num [nsPerSec]
      exact mul_nonneg (le_of_lt h0) this
    unfold applyCommandDefaults
    by_cases ha : cc.authStrategy = "" <;>
      simp [ha, hne, int64Wrap_eq_self _ hnn hbound]

/-- C8 amended witness: the 5-second command gets `5 * time.Second`, and the
zero-timeout command gets the 60-second default. -/
theorem c8_amended_witness :
    (lookupKey "sleepy" (processCommands cnfTimeouts).commands =
      some (applyCommandDefaults sleepyCfg)
    ∧ (applyCommandDefaults sleepyCfg).timeout = 5 * nsPerSec)
    ∧ (applyCommandDefaults emptyConfigCommand).timeout = 60 * nsPerSec := by
  have h1 := c8_amended cnfTimeouts "sleepy" sleepyCfg (by decide)
  have h2 := c8_amended cnfTimeouts "echo" emptyConfigCommand (by decide)
  exact ⟨⟨h1.1, h1.2.2 (by decide) (by decide)⟩, h2.2.1 (by decide)⟩

/-! ## Claim C10 — totality of `anyValue` -/

/-- C10 counterexample: an empty phrase bank. `anyValue` neither returns a
string nor an error: it panics inside `rand.Intn(0)`. -/
theorem c10_counterexample :
    anyValue "success" [("success", PayloadVal.strList [])] 0 =
      GoResult.panicked "invalid argument to Intn" := rfl

/-- C10 (amended): `anyValue` returns an error for a missing key and for a
value that is not a string slice, returns one of the bank's phrases for a
non-empty bank, but panics (in `rand.Intn(0)`) when the named phrase bank is
an empty list. -/
theorem c10_amended (key : String) (payload : List (String × PayloadVal))
    (seed : Nat) :
    (lookupKey key payload = none →
      anyValue key payload seed = GoResult.errR (key ++ " is not loaded in the payload"))
    ∧ (∀ s, lookupKey key payload = some (PayloadVal.raw s) →
      anyValue key payload seed = GoResult.errR (key ++ " is not a string slice"))
    ∧ (∀ x xs, lookupKey key payload = some (PayloadVal.strList (x :: xs)) →
      ∃ v, v ∈ x :: xs ∧ anyValue key payload seed = GoResult.ok v)
    ∧ (lookupKey key payload = some (PayloadVal.strList []) →
      anyValue key payload seed = GoResult.panicked "invalid argument to Intn") := by
  refine ⟨?_, ?_, ?_, ?_⟩
  · intro h
    simp [anyValue, h]
  · intro s h
    simp [anyValue, h]
  · intro x xs h
    refine ⟨(x :: xs).get ⟨seed % (x :: xs).length, Nat.mod_lt _ (by simp)⟩,
      List.get_mem _ _ _, ?_⟩
    simp [anyValue, h]
  · intro h
    simp [anyValue, h]

/-- C10 amended witness: a two-phrase bank yields one of its phrases. -/
theorem c10_amended_witness :
    ∃ v, v ∈ ["All done!", "Mr Meeseeks"]
      ∧ anyValue "success" [("success", PayloadVal.strList ["All done!", "Mr Meeseeks"])] 1 =
          GoResult.ok v := by
  have h := (c10_amended "success"
    [("success", PayloadVal.strList ["All done!", "Mr Meeseeks"])] 1).2.2.1
    "All done!" ["Mr Meeseeks"] rfl
  exact h

/-! ## Claim C9 — link round-trips -/

theorem matchChanAlt1_none (cs : List Char) (h : '\\' ∉ cs) :
    matchChanAlt1 ('<' :: '#' :: cs) = none := by
  have hsub : '\\' ∉ cs.takeWhile notNL := by
    intro hx
    exact h ((List.takeWhile_sublist notNL).subset hx)
  unfold matchChanAlt1
  simp [lastIndexOf_eq_none_of_not_mem _ _ hsub]

theorem matchChanAlt2_true (cs : List Char) (hnl : '\n' ∉ cs) (hgt : '>' ∈ cs) :
    matchChanAlt2 cs = true := by
  unfold matchChanAlt2
  rw [takeWhile_notNL_eq_self _ hnl]
  simpa [List.contains] using hgt

/-- C9 counterexample: the channel-link round trip at the ordinary channel id
`C123`. `GetChannelLink` renders `<#C123|general>`, but `ParseChannelLink`'s
raw-string regexp `<#(.*)\\|.*>` escapes the backslash instead of the pipe, so
the pattern is an alternation whose second branch `.*>` matches with the
capture group not participating: the parse returns the empty string — not
`C123` — with no error. -/
theorem c9_counterexample :
    parseChannelLink (getChannelLink "C123" "general") = Except.ok ""
    ∧ (Except.ok "" : Except String String) ≠ Except.ok "C123" := by
  refine ⟨rfl, ?_⟩
  simp

/-- C9 (amended): the user-link half round-trips — for every user id without a
newline, `ParseUserLink (GetUserLink u)` returns `u` with no error — but the
channel-link half does not: for every channel id and channel name free of
newlines and backslashes, `ParseChannelLink (GetChannelLink c)` succeeds with
the empty string instead of `c`, because the regexp's `\\|` makes the pipe an
alternation and the matching `.*>` branch carries no capture group. -/
theorem c9_amended (u c name : String)
    (hu : '\n' ∉ u.data)
    (hc1 : '\n' ∉ c.data) (hc2 : '\\' ∉ c.data)
    (hn1 : '\n' ∉ name.data) (hn2 : '\\' ∉ name.data) :
    parseUserLink (getUserLink u) = .ok u
    ∧ parseChannelLink (getChannelLink c name) = .ok "" := by
  constructor
  · have hdata : (getUserLink u).data = '<' :: '@' :: (u.data ++ ['>']) := by
      show ("<@" ++ u ++ ">").data = _
      rw [String.data_append, String.data_append, List.append_assoc]
      rfl
    have hstep : parseUserLinkChars ('<' :: '@' :: (u.data ++ ['>'])) = some u.data := by
      simp only [parseUserLinkChars]
      rw [matchUserGroup_roundtrip u.data hu]
    unfold parseUserLink
    rw [hdata, hstep]
  · have hdata : (getChannelLink c name).data =
        '<' :: '#' :: (c.data ++ '|' :: (name.data ++ ['>'])) := by
      show ("<#" ++ c ++ "|" ++ name ++ ">").data = _
      rw [String.data_append, String.data_append, String.data_append,
        String.data_append]
      show (((['<', '#'] ++ c.data) ++ ['|']) ++ name.data) ++ ['>'] = _
      simp [List.append_assoc]
    have hbs : '\\' ∉ c.data ++ '|' :: (name.data ++ ['>']) := by
      intro hx
      rcases List.mem_append.mp hx with hx | hx
      · exact hc2 hx
      · rcases List.mem_cons.mp hx with hx | hx
        · cases hx
        · rcases List.mem_append.mp hx with hx | hx
          · exact hn2 hx
          · simp only [List.mem_singleton] at hx
            cases hx
    have hnl : '\n' ∉ '<' :: '#' :: (c.data ++ '|' :: (name.data ++ ['>'])) := by
      intro hx
      rcases List.mem_cons.mp hx with hx | hx
      · cases hx
      rcases List.mem_cons.mp hx with hx | hx
      · cases hx
      rcases List.mem_append.mp hx with hx | hx
      · exact hc1 hx
      rcases List.mem_cons.mp hx with hx | hx
      · cases hx
      rcases List.mem_append.mp hx with hx | hx
      · exact hn1 hx
      · simp only [List.mem_singleton] at hx
        cases hx
    have hgt : '>' ∈ '<' :: '#' :: (c.data ++ '|' :: (name.data ++ ['>'])) := by
      simp
    have hstep : parseChannelLinkChars
        ('<' :: '#' :: (c.data ++ '|' :: (name.data ++ ['>']))) = some [] := by
      simp only [parseChannelLinkChars]
      rw [matchChanAlt1_none _ hbs, matchChanAlt2_true _ hnl hgt]
      simp
    unfold parseChannelLink
    rw [hdata, hstep]

/-- C9 amended witness: concrete ids round-trip as the amended claim says. -/
theorem c9_amended_witness :
    parseUserLink (getUserLink "U1ABC") = .ok "U1ABC"
    ∧ parseChannelLink (getChannelLink "C123" "general") = .ok "" := by
  exact c9_amended "U1ABC" "C123" "general" (by decide) (by decide) (by decide)
    (by decide) (by decide)

/-! ## Claim C1 — group authorization checks the wrong string -/

/-- C1: the `deploy` command has auth strategy `group` with allowed groups
`[admin]`, and the requesting user `alice` is a member of `admin` — the
modelled `auth.Check` would allow her (first conjunct). Yet `Process` denies
the request, posts an unauthorized reply and never invokes the executor
(second conjunct, `executed = false`), because `meeseeks.go` passes
`req.Command` — the string `"deploy"` — in the username position of
`auth.Check`, so membership is tested for the command name instead of the
requesting user. -/
theorem c1_code_bug_eval :
    authCheck cnfAdminAlice.groups reqDeploy.username deployCfg = true
    ∧ Process envOK cnfAdminAlice catalogDeploy fmDeploy msgDeploy =
        Outcome.done
          [⟨ReplyKind.unauthorizedK, defaultErrColorMessage, "ops",
            "rendered-unauthorized"⟩] false := ⟨rfl, rfl⟩

/-! ## Claim C2 — render failures terminate the dispatcher -/

/-- C2 counterexample: a message that fails to parse while the failure
template cannot be rendered. `Process` reaches `log.Fatalf` — the dispatcher
process terminates instead of logging and continuing. -/
theorem c2_counterexample :
    Process envRenderBroken cnfAdminAlice catalogDeploy fmBroken msgDeploy =
      Outcome.fatal [] "template-boom" := rfl

/-- C2 (amended): on every path of `Process`, a failure to render the reply
template being posted — the failure template for an invalid message, the
unknown-command template, the unauthorized template, the handshake template,
and the failure or success template after execution — calls `log.Fatalf` and
terminates the dispatcher process; the terminal reply is never posted, and
replies already posted before the failing render (the handshake replies `hs`,
when the post-execution failure or success template fails) stand. By
contrast, a render failure inside the slack reply styles
(`attachmentReplyStyle.Reply`) is logged and the reply skipped without
crashing, chat post failures likewise being only logged. -/
theorem c2_amended (env : RenderEnv) (cnf : Config) (cmds : Commands)
    (fm : Message → Except String Request) (msg : Message) :
    (∀ e f, fm msg = .error e → env.renderFailure msg.replyTo e "" = .error f →
      Process env cnf cmds fm msg = Outcome.fatal [] f)
    ∧ (∀ req f, fm msg = .ok req → cmds.find req.command = none →
      env.renderUnknownCommand req.replyTo req.command = .error f →
      Process env cnf cmds fm msg = Outcome.fatal [] f)
    ∧ (∀ req cmd f, fm msg = .ok req → cmds.find req.command = some cmd →
      authCheck cnf.groups req.command cmd.cnf = false →
      env.renderUnauthorizedCommand req.replyTo req.command = .error f →
      Process env cnf cmds fm msg = Outcome.fatal [] f)
    ∧ (∀ req cmd f, fm msg = .ok req → cmds.find req.command = some cmd →
      authCheck cnf.groups req.command cmd.cnf = true → cmd.handshake = true →
      env.renderHandshake req.replyTo = .error f →
      Process env cnf cmds fm msg = Outcome.fatal [] f)
    ∧ (∀ req cmd f hs out e, fm msg = .ok req → cmds.find req.command = some cmd →
      authCheck cnf.groups req.command cmd.cnf = true →
      handshakeStep env cnf req cmd = .ok hs →
      cmd.execute req.args = (out, some e) →
      env.renderFailure req.replyTo e out = .error f →
      Process env cnf cmds fm msg = Outcome.fatal hs f)
    ∧ (∀ req cmd f hs out, fm msg = .ok req → cmds.find req.command = some cmd →
      authCheck cnf.groups req.command cmd.cnf = true →
      handshakeStep env cnf req cmd = .ok hs →
      cmd.execute req.args = (out, none) →
      env.renderSuccess req.replyTo out = .error f →
      Process env cnf cmds fm msg = Outcome.fatal hs f)
    ∧ (∀ r : FormatterReply, (∃ er, r.render = .error er) →
      attachmentReplyStyleReply r = PostAction.skipped) := by
  refine ⟨?_, ?_, ?_, ?_, ?_, ?_, ?_⟩
  · intro e f hfm hrf
    simp only [Process, hfm, hrf]
  · intro req f hfm hfind hru
    simp only [Process, hfm, hfind, hru]
  · intro req cmd f hfm hfind hauth hru
    simp only [Process, hfm, hfind, hauth, Bool.false_eq_true, if_false, hru]
  · intro req cmd f hfm hfind hauth hh hrh
    simp only [Process, hfm, hfind, hauth, if_true, handshakeStep, hh, hrh]
  · intro req cmd f hs out e hfm hfind hauth hhs hex hrf
    simp only [Process, hfm, hfind, hauth, if_true, hhs, hex, hrf]
  · intro req cmd f hs out hfm hfind hauth hhs hex hrs
    simp only [Process, hfm, hfind, hauth, if_true, hhs, hex, hrs]
  · intro r hr
    obtain ⟨er, hr⟩ := hr
    simp [attachmentReplyStyleReply, hr]

/-- C2 amended witness: the invalid-message scene dies with nothing posted;
the broken-success-template scene dies with the handshake already posted; a
slack reply whose render fails is skipped without crashing. -/
theorem c2_amended_witness :
    Process envRenderBroken cnfAdminAlice catalogDeploy fmBroken msgDeploy =
      Outcome.fatal [] "template-boom"
    ∧ Process envSuccessBroken cnfAdminAlice catalogEcho fmEcho msgEcho =
        Outcome.fatal [hsReplyW] "success-boom"
    ∧ attachmentReplyStyleReply ⟨Except.error "render-x", "#cc3300", "ops"⟩ =
        PostAction.skipped := by
  have h1 := c2_amended envRenderBroken cnfAdminAlice catalogDeploy fmBroken msgDeploy
  have h2 := c2_amended envSuccessBroken cnfAdminAlice catalogEcho fmEcho msgEcho
  refine ⟨h1.1 "failed to parse" "template-boom" rfl rfl, ?_,
    h1.2.2.2.2.2.2 ⟨Except.error "render-x", "#cc3300", "ops"⟩ ⟨"render-x", rfl⟩⟩
  exact h2.2.2.2.2.2.1 reqEcho echoCmd "success-boom" [hsReplyW] "hi world\n"
    rfl rfl rfl rfl rfl rfl

/-! ## Claim C6 — reply discipline of `Process` -/

/-- C6: whenever `Process` completes (does not hit the fatal render path), it
posts exactly one terminal reply: a single failure reply for an unparseable
message; a single unknown-command reply for an unresolved command; a single
unauthorized reply for a denied command, with the executor not invoked in any
of these cases; and for an accepted command the executor is invoked and
exactly one success (no execution error) or failure (execution error) reply is
posted, preceded by exactly one handshake reply iff the command has the
handshake flag. -/
theorem c6_confirmed (env : RenderEnv) (cnf : Config) (cmds : Commands)
    (fm : Message → Except String Request) (msg : Message)
    (replies : List Reply) (executed : Bool)
    (hdone : Process env cnf cmds fm msg = Outcome.done replies executed) :
    (∀ e, fm msg = Except.error e →
      executed = false ∧ ∃ r, replies = [r] ∧ r.kind = ReplyKind.failureK)
    ∧ (∀ req, fm msg = Except.ok req → cmds.find req.command = none →
      executed = false ∧ ∃ r, replies = [r] ∧ r.kind = ReplyKind.unknownK)
    ∧ (∀ req cmd, fm msg = Except.ok req → cmds.find req.command = some cmd →
      authCheck cnf.groups req.command cmd.cnf = false →
      executed = false ∧ ∃ r, replies = [r] ∧ r.kind = ReplyKind.unauthorizedK)
    ∧ (∀ req cmd, fm msg = Except.ok req → cmds.find req.command = some cmd →
      authCheck cnf.groups req.command cmd.cnf = true →
      executed = true ∧ ∃ t,
        t.kind = (if (cmd.execute req.args).2 = none then ReplyKind.successK
                  else ReplyKind.failureK)
        ∧ (if cmd.handshake then ∃ hr, replies = [hr, t] ∧ hr.kind = ReplyKind.handshakeK
           else replies = [t])) := by
  cases hfm : fm msg with
  | error e0 =>
    cases hrf : env.renderFailure msg.replyTo e0 "" with
    | error f =>
      simp only [Process, hfm, hrf] at hdone
      exact Outcome.noConfusion hdone
    | ok content =>
      simp only [Process, hfm, hrf] at hdone
      injection hdone with h1 h2
      subst h1
      subst h2
      refine ⟨?_, ?_, ?_, ?_⟩
      · intro e _
        exact ⟨rfl, _, rfl, rfl⟩
      · intro req hreq _
        exact Except.noConfusion hreq
      · intro req cmd hreq _ _
        exact Except.noConfusion hreq
      · intro req cmd hreq _ _
        exact Except.noConfusion hreq
  | ok req0 =>
    cases hfind : cmds.find req0.command with
    | none =>
      cases hru : env.renderUnknownCommand req0.replyTo req0.command with
      | error f =>
        simp only [Process, hfm, hfind, hru] at hdone
        exact Outcome.noConfusion hdone
      | ok content =>
        simp only [Process, hfm, hfind, hru] at hdone
        injection hdone with h1 h2
        subst h1
        subst h2
        refine ⟨?_, ?_, ?_, ?_⟩
        · intro e he
          exact Except.noConfusion he
        · intro req _ _
          exact ⟨rfl, _, rfl, rfl⟩
        · intro req cmd hreq hfind2 _
          have hreqq : req0 = req := Except.ok.inj hreq
          rw [← hreqq, hfind] at hfind2
          exact Option.noConfusion hfind2
        · intro req cmd hreq hfind2 _
          have hreqq : req0 = req := Except.ok.inj hreq
          rw [← hreqq, hfind] at hfind2
          exact Option.noConfusion hfind2
    | some cmd0 =>
      by_cases hauth : authCheck cnf.groups req0.command cmd0.cnf = true
      · cases hhs : handshakeStep env cnf req0 cmd0 with
        | error f =>
          simp only [Process, hfm, hfind, hauth, if_true, hhs] at hdone
          exact Outcome.noConfusion hdone
        | ok hs =>
          cases hex : cmd0.execute req0.args with
          | mk out errOpt =>
            cases errOpt with
            | some e1 =>
              cases hrf : env.renderFailure req0.replyTo e1 out with
              | error f =>
                simp only [Process, hfm, hfind, hauth, if_true, hhs, hex, hrf] at hdone
                exact Outcome.noConfusion hdone
              | ok content =>
                simp only [Process, hfm, hfind, hauth, if_true, hhs, hex, hrf] at hdone
                injection hdone with h1 h2
                subst h1
                subst h2
                refine ⟨?_, ?_, ?_, ?_⟩
                · intro e he
                  exact Except.noConfusion he
                · intro req hreq hfind2
                  have hreqq : req0 = req := Except.ok.inj hreq
                  rw [← hreqq, hfind] at hfind2
                  exact Option.noConfusion hfind2
                · intro req cmd hreq hfind2 hauth2
                  have hreqq : req0 = req := Except.ok.inj hreq
                  subst hreqq
                  rw [hfind] at hfind2
                  have hcmd : cmd0 = cmd := Option.some.inj hfind2
                  subst hcmd
                  rw [hauth] at hauth2
                  exact Bool.noConfusion hauth2
                · intro req cmd hreq hfind2 _
                  have hreqq : req0 = req := Except.ok.inj hreq
                  subst hreqq
                  rw [hfind] at hfind2
                  have hcmd : cmd0 = cmd := Option.some.inj hfind2
                  subst hcmd
                  refine ⟨rfl, ?_⟩
                  rcases handshakeStep_spec env cnf req0 cmd0 hs hhs with
                    ⟨hh, r, hr1, hr2⟩ | ⟨hh, hr1⟩
                  · refine ⟨⟨ReplyKind.failureK, cnf.colors.error, req0.channel,
                      content⟩, ?_, ?_⟩
                    · rw [hex]
                      simp
                    · rw [if_pos hh, hr1]
                      exact ⟨r, rfl, hr2⟩
                  · refine ⟨⟨ReplyKind.failureK, cnf.colors.error, req0.channel,
                      content⟩, ?_, ?_⟩
                    · rw [hex]
                      simp
                    · rw [if_neg (by simp [hh]), hr1]
                      rfl
            | none =>
              cases hrs : env.renderSuccess req0.replyTo out with
              | error f =>
                simp only [Process, hfm, hfind, hauth, if_true, hhs, hex, hrs] at hdone
                exact Outcome.noConfusion hdone
              | ok content =>
                simp only [Process, hfm, hfind, hauth, if_true, hhs, hex, hrs] at hdone
                injection hdone with h1 h2
                subst h1
                subst h2
                refine ⟨?_, ?_, ?_, ?_⟩
                · intro e he
                  exact Except.noConfusion he
                · intro req hreq hfind2
                  have hreqq : req0 = req := Except.ok.inj hreq
                  rw [← hreqq, hfind] at hfind2
                  exact Option.noConfusion hfind2
                · intro req cmd hreq hfind2 hauth2
                  have hreqq : req0 = req := Except.ok.inj hreq
                  subst hreqq
                  rw [hfind] at hfind2
                  have hcmd : cmd0 = cmd := Option.some.inj hfind2
                  subst hcmd
                  rw [hauth] at hauth2
                  exact Bool.noConfusion hauth2
                · intro req cmd hreq hfind2 _
                  have hreqq : req0 = req := Except.ok.inj hreq
                  subst hreqq
                  rw [hfind] at hfind2
                  have hcmd : cmd0 = cmd := Option.some.inj hfind2
                  subst hcmd
                  refine ⟨rfl, ?_⟩
                  rcases handshakeStep_spec env cnf req0 cmd0 hs hhs with
                    ⟨hh, r, hr1, hr2⟩ | ⟨hh, hr1⟩
                  · refine ⟨⟨ReplyKind.successK, cnf.colors.success, req0.channel,
                      content⟩, ?_, ?_⟩
                    · rw [hex]
                      simp
                    · rw [if_pos hh, hr1]
                      exact ⟨r, rfl, hr2⟩
                  · refine ⟨⟨ReplyKind.successK, cnf.colors.success, req0.channel,
                      content⟩, ?_, ?_⟩
                    · rw [hex]
                      simp
                    · rw [if_neg (by simp [hh]), hr1]
                      rfl
      · have hauthf : authCheck cnf.groups req0.command cmd0.cnf = false := by
          simpa using hauth
        cases hru : env.renderUnauthorizedCommand req0.replyTo req0.command with
        | error f =>
          simp only [Process, hfm, hfind, hauthf, Bool.false_eq_true, if_false,
            hru] at hdone
          exact Outcome.noConfusion hdone
        | ok content =>
          simp only [Process, hfm, hfind, hauthf, Bool.false_eq_true, if_false,
            hru] at hdone
          injection hdone with h1 h2
          subst h1
          subst h2
          refine ⟨?_, ?_, ?_, ?_⟩
          · intro e he
            exact Except.noConfusion he
          · intro req hreq hfind2
            have hreqq : req0 = req := Except.ok.inj hreq
            rw [← hreqq, hfind] at hfind2
            exact Option.noConfusion hfind2
          · intro req cmd _ _ _
            exact ⟨rfl, _, rfl, rfl⟩
          · intro req cmd hreq hfind2 hauth2
            have hreqq : req0 = req := Except.ok.inj hreq
            subst hreqq
            rw [hfind] at hfind2
            have hcmd : cmd0 = cmd := Option.some.inj hfind2
            subst hcmd
            rw [hauthf] at hauth2
            exact Bool.noConfusion hauth2

/-- C6 witness: in the accepted `echo` scene, `Process` completes with a
handshake followed by a success reply and the executor invoked. -/
theorem c6_witness :
    ∃ t, t.kind = ReplyKind.successK
      ∧ ∃ hr, [hsReplyW, successReplyW] = [hr, t]
          ∧ hr.kind = ReplyKind.handshakeK := by
  have hdone : Process envOK cnfAdminAlice catalogEcho fmEcho msgEcho =
      Outcome.done [hsReplyW, successReplyW] true := rfl
  have h4 := (c6_confirmed envOK cnfAdminAlice catalogEcho fmEcho msgEcho
    [hsReplyW, successReplyW] true hdone).2.2.2 reqEcho echoCmd rfl rfl rfl
  obtain ⟨-, t, ht, hif⟩ := h4
  rw [if_pos (show echoCmd.handshake = true from rfl)] at hif
  refine ⟨t, ?_, hif⟩
  rw [ht]
  rfl

end Meeseeks
